import Mathlib

/-!
Shallow embedding of the data-preparation and aggregation pipeline of
`src/app.py` (sleep-health dashboard).  The embedded fragments are:

* the guarded load of the CSV with its hard-coded fixture fallback and the
  column-name normalization (lines 29-51 and 33);
* the missing-value policy `data_base['Sleep_Disorder'].fillna('None')`
  (line 36);
* the frequency tables `value_counts` for `Gender`, `BMI_Category` and
  `Sleep_Disorder` (lines 72-79): pandas lists each distinct value with its
  count, sorted by descending count;
* the group means `data_base.groupby(k)[numeric_vars].mean()` (lines 68-69):
  pandas groups by each distinct key value and sorts the group keys in
  ascending string order (code-point lexicographic, `sort=True` default);
* the Pearson correlation matrix `data_base[numeric_vars].corr()` (line 61):
  pandas computes, for each pair of columns, the demeaned dot products and
  returns their quotient by the square root of the product of the two
  self dot products, clipped to `[-1, 1]`; when that divisor is zero the
  entry is NaN, which we model as `none` in `Option ℝ`.

Numeric cells are modelled as exact rationals; the real CSV and the fixture
carry no NaN in the numeric columns, so numeric fields are total.
-/

/-- One row of the dataset after loading, with the nine required fields of the
schema (column identifiers already normalized as on line 33 of `app.py`). -/
structure Record where
  gender : String
  age : ℚ
  sleep_duration : ℚ
  quality_of_sleep : ℚ
  physical_activity_level : ℚ
  stress_level : ℚ
  bmi_category : String
  heart_rate : ℚ
  daily_steps : ℚ
  sleep_disorder : String

/-- The six numeric variables of the list `numeric_vars` (`app.py` lines
54-58). -/
inductive NumField where
  | sleep_duration
  | quality_of_sleep
  | physical_activity_level
  | stress_level
  | heart_rate
  | daily_steps

/-- Value of a numeric field in a record (string-keyed column access of the
source, made total by the enumeration of the six used names). -/
def NumField.get : NumField → Record → ℚ
  | .sleep_duration, r => r.sleep_duration
  | .quality_of_sleep, r => r.quality_of_sleep
  | .physical_activity_level, r => r.physical_activity_level
  | .stress_level, r => r.stress_level
  | .heart_rate, r => r.heart_rate
  | .daily_steps, r => r.daily_steps

/-- Column of a numeric field over a dataset (`data_base[v]` for `v` in
`numeric_vars`). -/
def numericColumn (D : List Record) (f : NumField) : List ℚ :=
  D.map (NumField.get f)

/-- Distinct values of a list in order of first occurrence, with an
accumulator of values already emitted.  This is the key order pandas uses
before any sorting. -/
def uniqueAux (seen : List String) : List String → List String
  | [] => []
  | x :: xs => if x ∈ seen then uniqueAux seen xs else x :: uniqueAux (x :: seen) xs

/-- Distinct values of a list in order of first occurrence. -/
def uniqueInOrder (xs : List String) : List String :=
  uniqueAux [] xs

/-- Insertion of an element into a list, in front of the first element it
compares no worse than, under a boolean comparison. -/
def insertLe {α : Type} (le : α → α → Bool) (x : α) : List α → List α
  | [] => [x]
  | y :: ys => if le x y then x :: y :: ys else y :: insertLe le x ys

/-- Comparison sort (insertion sort).  The source relies on pandas sorting
(`groupby(..., sort=True)` and `value_counts(sort=True)`); any comparison
sort realizes the same specified output order. -/
def sortLe {α : Type} (le : α → α → Bool) : List α → List α
  | [] => []
  | x :: xs => insertLe le x (sortLe le xs)

/-- Lexicographic comparison of char lists by code point, the order Python
uses to compare strings (and hence the order of pandas sorted group keys). -/
def lexLe : List Char → List Char → Bool
  | [], _ => true
  | _ :: _, [] => false
  | a :: as, b :: bs =>
    if a.toNat < b.toNat then true
    else if b.toNat < a.toNat then false
    else lexLe as bs

/-- Python string comparison, code-point lexicographic. -/
def strLe (a b : String) : Bool :=
  lexLe a.data b.data

/-- Descending comparison on (value, count) pairs, the order of
`value_counts` output. -/
def countDescLe (a b : String × ℕ) : Bool :=
  decide (b.2 ≤ a.2)

/-- Arithmetic mean of a list of rationals (0 on the empty list, matching the
convention that division by zero yields zero; empty groups never occur). -/
def listMean (xs : List ℚ) : ℚ :=
  xs.sum / xs.length

/-- Sum of products of deviations from the respective means: the quantity
`covxy` (and for `xs = ys` the quantities `ssqdmx`, `ssqdmy`) accumulated by
the pandas correlation kernel behind `DataFrame.corr` (line 61). -/
def demeanedDot (xs ys : List ℚ) : ℚ :=
  (List.zipWith (fun x y => (x - listMean xs) * (y - listMean ys)) xs ys).sum

/-- Clipping of a coefficient to `[-1, 1]`, exactly as the pandas correlation
kernel does after the division. -/
noncomputable def clip (x : ℝ) : ℝ :=
  if 1 < x then 1 else if x < -1 then -1 else x

/-- Pearson coefficient of two equal-length columns as computed by
`DataFrame.corr`: quotient of the demeaned dot product by the square root of
the product of the two self dot products, clipped to `[-1, 1]`; `none` models
the NaN the kernel writes when the divisor is zero (zero variance, a single
row, or no rows). -/
noncomputable def pearson (xs ys : List ℚ) : Option ℝ :=
  if demeanedDot xs xs * demeanedDot ys ys = 0 then none
  else some (clip (((demeanedDot xs ys : ℚ) : ℝ) /
    Real.sqrt (((demeanedDot xs xs : ℚ) : ℝ) * ((demeanedDot ys ys : ℚ) : ℝ))))

/-- Entry of the correlation matrix `corr_matrix = data_base[numeric_vars].corr()`
(`app.py` line 61), indexed by two of the six numeric fields. -/
noncomputable def corr_matrix (D : List Record) (f g : NumField) : Option ℝ :=
  pearson (numericColumn D f) (numericColumn D g)

/-- Frequency table of a column: each distinct value with its occurrence
count, sorted by descending count (`Series.value_counts`). -/
def valueCounts (xs : List String) : List (String × ℕ) :=
  sortLe countDescLe ((uniqueInOrder xs).map (fun v => (v, xs.count v)))

/-- Frequency table `gender_counts` (`app.py` lines 72-73). -/
def gender_counts (D : List Record) : List (String × ℕ) :=
  valueCounts (D.map Record.gender)

/-- Frequency table `bmi_counts` (`app.py` lines 75-76). -/
def bmi_counts (D : List Record) : List (String × ℕ) :=
  valueCounts (D.map Record.bmi_category)

/-- Frequency table `sleep_disorder_counts` (`app.py` lines 78-79). -/
def sleep_disorder_counts (D : List Record) : List (String × ℕ) :=
  valueCounts (D.map Record.sleep_disorder)

/-- Group-wise means `groupby(key)[numeric_vars].mean()`: one row per distinct
key value present, keys sorted ascending (pandas `sort=True` default), each
row carrying the mean of every numeric field over the matching rows. -/
def groupMeans (D : List Record) (key : Record → String) : List (String × (NumField → ℚ)) :=
  (sortLe strLe (uniqueInOrder (D.map key))).map
    (fun g => (g, fun f => listMean (numericColumn (D.filter (fun r => key r == g)) f)))

/-- Group means by gender, `stats_gender` (`app.py` line 68). -/
def stats_gender (D : List Record) : List (String × (NumField → ℚ)) :=
  groupMeans D Record.gender

/-- Group means by BMI category, `stats_bmi` (`app.py` line 69). -/
def stats_bmi (D : List Record) : List (String × (NumField → ℚ)) :=
  groupMeans D Record.bmi_category

/-- The hard-coded four-row fixture dataset of the `except` branch
(`app.py` lines 40-51). -/
def data_base_fixture : List Record :=
  [⟨"Male", 35, 7.5, 8, 60, 5, "Normal", 72, 8500, "None"⟩,
   ⟨"Female", 42, 6.8, 6, 45, 7, "Overweight", 78, 6000, "Insomnia"⟩,
   ⟨"Male", 29, 8.2, 9, 75, 4, "Normal", 68, 10000, "None"⟩,
   ⟨"Female", 51, 6.5, 5, 30, 8, "Obese", 82, 5000, "Sleep Apnea"⟩]

/-- Raw parsed table, column identifiers already normalized: each of the nine
required columns is either present (`some` cells) or absent (`none`), and a
`Sleep_Disorder` cell may itself be missing (NaN) before the fill of line 36.
The other columns carry no NaN in this repository's data. -/
structure RawTable where
  gender : Option (List String)
  age : Option (List ℚ)
  sleep_duration : Option (List ℚ)
  quality_of_sleep : Option (List ℚ)
  physical_activity_level : Option (List ℚ)
  stress_level : Option (List ℚ)
  bmi_category : Option (List String)
  heart_rate : Option (List ℚ)
  daily_steps : Option (List ℚ)
  sleep_disorder : Option (List (Option String))

/-- Column-identifier normalization of line 33:
`col.replace(' ', '_')`. -/
def normalizeColumn (c : String) : String :=
  c.replace " " "_"

/-- Table presenting a list of records as nine fully-present columns. -/
def recordsToTable (rs : List Record) : RawTable where
  gender := some (rs.map Record.gender)
  age := some (rs.map Record.age)
  sleep_duration := some (rs.map Record.sleep_duration)
  quality_of_sleep := some (rs.map Record.quality_of_sleep)
  physical_activity_level := some (rs.map Record.physical_activity_level)
  stress_level := some (rs.map Record.stress_level)
  bmi_category := some (rs.map Record.bmi_category)
  heart_rate := some (rs.map Record.heart_rate)
  daily_steps := some (rs.map Record.daily_steps)
  sleep_disorder := some (rs.map (fun r => some r.sleep_disorder))

/-- The fixture dataset as a raw table. -/
def fixtureTable : RawTable :=
  recordsToTable data_base_fixture

/-- The guarded load of lines 29-51.  Input `none` stands for a source that
cannot be read or parsed (`pd.read_csv` raising).  Inside the `try` block the
only column the loader touches is `Sleep_Disorder` (line 36): if it is absent
the raised KeyError is caught and the fixture is substituted; otherwise the
table is returned with the `fillna('None')` applied and nothing else changed.
The boolean records whether the degraded-load message of line 38 was printed. -/
def load : Option RawTable → RawTable × Bool
  | none => (fixtureTable, true)
  | some t =>
    match t.sleep_disorder with
    | none => (fixtureTable, true)
    | some col =>
      ({ t with sleep_disorder := some (col.map (fun c => some (c.getD "None"))) }, false)

/-- Test that all nine required columns of the schema are present (schema
conformance).  The loader never performs this check; of the nine columns,
all but Age are accessed downstream (lines 61, 68-82), Age nowhere after
the load. -/
def schemaComplete (t : RawTable) : Bool :=
  t.gender.isSome && t.age.isSome && t.sleep_duration.isSome &&
  t.quality_of_sleep.isSome && t.physical_activity_level.isSome &&
  t.stress_level.isSome && t.bmi_category.isSome && t.heart_rate.isSome &&
  t.daily_steps.isSome && t.sleep_disorder.isSome

/-- Two-row dataset whose `Heart_Rate` column is constant: a zero-variance
numeric field, the case in which the pandas correlation kernel writes NaN. -/
def constDataset : List Record :=
  [⟨"Male", 30, 7, 8, 60, 5, "Normal", 70, 8000, "None"⟩,
   ⟨"Female", 40, 8, 6, 45, 7, "Normal", 70, 6000, "None"⟩]

/-- Raw table identical to the fixture except that the `Sleep_Disorder`
column is absent. -/
def rawNoDisorder : RawTable :=
  { fixtureTable with sleep_disorder := none }

/-- Column selection `data_base[numeric_vars]` feeding the Correlation Engine
(line 61): the six numeric columns, with `none` modelling the uncaught
KeyError raised when one of them is absent. -/
def numericTableColumns (t : RawTable) : Option (List (List ℚ)) :=
  match t.sleep_duration, t.quality_of_sleep, t.physical_activity_level,
      t.stress_level, t.heart_rate, t.daily_steps with
  | some a, some b, some c, some d, some e, some f => some [a, b, c, d, e, f]
  | _, _, _, _, _, _ => none

/-- Raw table identical to the fixture except that the required `Heart_Rate`
column (one of the six numeric variables of lines 54-58) is absent:
schema-deficient, but with `Sleep_Disorder` present. -/
def rawMissingHR : RawTable :=
  { fixtureTable with heart_rate := none }

/-- Sleep-disorder column with one missing cell, for exercising the
missing-value policy. -/
def rawWithMissing : RawTable :=
  { fixtureTable with sleep_disorder := some [some "Insomnia", none] }

/-- Inserting an element permutes consing it. -/
lemma insertLe_perm {α : Type} (le : α → α → Bool) (x : α) :
    ∀ l : List α, (insertLe le x l).Perm (x :: l)
  | [] => List.Perm.refl _
  | y :: ys => by
    simp only [insertLe]
    split
    · exact List.Perm.refl _
    · exact ((insertLe_perm le x ys).cons y).trans (List.Perm.swap x y ys)

/-- Sorting permutes the input. -/
lemma sortLe_perm {α : Type} (le : α → α → Bool) :
    ∀ l : List α, (sortLe le l).Perm l
  | [] => List.Perm.refl _
  | x :: xs => (insertLe_perm le x (sortLe le xs)).trans ((sortLe_perm le xs).cons x)

/-- Membership after insertion. -/
lemma mem_insertLe {α : Type} (le : α → α → Bool) (x a : α) (l : List α) :
    a ∈ insertLe le x l ↔ a = x ∨ a ∈ l := by
  rw [(insertLe_perm le x l).mem_iff, List.mem_cons]

/-- Insertion into a sorted list is sorted, for a total transitive boolean
comparison. -/
lemma pairwise_insertLe {α : Type} (le : α → α → Bool)
    (htot : ∀ a b, le a b = true ∨ le b a = true)
    (htr : ∀ a b c, le a b = true → le b c = true → le a c = true) (x : α) :
    ∀ l : List α, l.Pairwise (fun a b => le a b = true) →
      (insertLe le x l).Pairwise (fun a b => le a b = true)
  | [], _ => by simp [insertLe]
  | y :: ys, h => by
    rcases List.pairwise_cons.mp h with ⟨hy, hys⟩
    simp only [insertLe]
    split
    case isTrue hxy =>
      refine List.pairwise_cons.mpr ⟨?_, h⟩
      intro b hb
      rcases List.mem_cons.mp hb with rfl | hb
      · exact hxy
      · exact htr _ _ _ hxy (hy b hb)
    case isFalse hxy =>
      have hyx : le y x = true := by
        rcases htot x y with hx | hx
        · exact absurd hx hxy
        · exact hx
      refine List.pairwise_cons.mpr ⟨?_, pairwise_insertLe le htot htr x ys hys⟩
      intro b hb
      rcases (mem_insertLe le x b ys).mp hb with rfl | hb
      · exact hyx
      · exact hy b hb

/-- Output of the comparison sort is sorted, for a total transitive boolean
comparison. -/
lemma pairwise_sortLe {α : Type} (le : α → α → Bool)
    (htot : ∀ a b, le a b = true ∨ le b a = true)
    (htr : ∀ a b c, le a b = true → le b c = true → le a c = true) :
    ∀ l : List α, (sortLe le l).Pairwise (fun a b => le a b = true)
  | [] => List.Pairwise.nil
  | x :: xs => pairwise_insertLe le htot htr x (sortLe le xs) (pairwise_sortLe le htot htr xs)

/-- Totality of the code-point lexicographic comparison. -/
lemma lexLe_total : ∀ as bs : List Char, lexLe as bs = true ∨ lexLe bs as = true := by
  intro as
  induction as with
  | nil => intro bs; left; rfl
  | cons a as ih =>
    intro bs
    cases bs with
    | nil => right; rfl
    | cons b bs =>
      rcases Nat.lt_trichotomy a.toNat b.toNat with h | h | h
      · left; simp [lexLe, h]
      · have h1 : ¬ a.toNat < b.toNat := by omega
        have h2 : ¬ b.toNat < a.toNat := by omega
        rcases ih bs with hx | hx
        · left; simp [lexLe, h1, h2, hx]
        · right; simp [lexLe, h1, h2, hx]
      · right; simp [lexLe, h]

/-- Transitivity of the code-point lexicographic comparison. -/
lemma lexLe_trans : ∀ as bs cs : List Char,
    lexLe as bs = true → lexLe bs cs = true → lexLe as cs = true := by
  intro as
  induction as with
  | nil => intro bs cs _ _; rfl
  | cons a as ih =>
    intro bs cs hab hbc
    cases bs with
    | nil => simp [lexLe] at hab
    | cons b bs =>
      cases cs with
      | nil => simp [lexLe] at hbc
      | cons c cs =>
        simp only [lexLe] at hab hbc ⊢
        split_ifs at hab hbc ⊢ with h1 h2 h3 h4 h5 h6 <;>
          first
          | rfl
          | omega
          | exact ih bs cs hab hbc

/-- Totality of the Python string comparison. -/
lemma strLe_total (a b : String) : strLe a b = true ∨ strLe b a = true :=
  lexLe_total a.data b.data

/-- Transitivity of the Python string comparison. -/
lemma strLe_trans (a b c : String) :
    strLe a b = true → strLe b c = true → strLe a c = true :=
  lexLe_trans a.data b.data c.data

/-- Totality of the descending count comparison. -/
lemma countDescLe_total (a b : String × ℕ) :
    countDescLe a b = true ∨ countDescLe b a = true := by
  unfold countDescLe
  rcases Nat.le_total b.2 a.2 with h | h
  · left; exact decide_eq_true h
  · right; exact decide_eq_true h

/-- Transitivity of the descending count comparison. -/
lemma countDescLe_trans (a b c : String × ℕ) :
    countDescLe a b = true → countDescLe b c = true → countDescLe a c = true := by
  unfold countDescLe
  intro h1 h2
  exact decide_eq_true (Nat.le_trans (of_decide_eq_true h2) (of_decide_eq_true h1))

/-- Membership in the first-occurrence deduplication with accumulator. -/
lemma mem_uniqueAux : ∀ (xs seen : List String) (v : String),
    v ∈ uniqueAux seen xs ↔ v ∈ xs ∧ v ∉ seen := by
  intro xs
  induction xs with
  | nil => intro seen v; simp [uniqueAux]
  | cons x xs ih =>
    intro seen v
    simp only [uniqueAux]
    split
    case isTrue hx =>
      rw [ih seen v]
      simp only [List.mem_cons]
      constructor
      · rintro ⟨h1, h2⟩; exact ⟨Or.inr h1, h2⟩
      · rintro ⟨h1 | h1, h2⟩
        · exact absurd (h1 ▸ hx) h2
        · exact ⟨h1, h2⟩
    case isFalse hx =>
      simp only [List.mem_cons, ih (x :: seen) v]
      constructor
      · rintro (rfl | ⟨h1, h2⟩)
        · exact ⟨Or.inl rfl, hx⟩
        · exact ⟨Or.inr h1, fun hs => h2 (Or.inr hs)⟩
      · rintro ⟨rfl | h1, h2⟩
        · exact Or.inl rfl
        · by_cases hvx : v = x
          · exact Or.inl hvx
          · exact Or.inr ⟨h1, by simp [List.mem_cons, hvx, h2]⟩

/-- Membership in the first-occurrence deduplication. -/
lemma mem_uniqueInOrder (xs : List String) (v : String) :
    v ∈ uniqueInOrder xs ↔ v ∈ xs := by
  simp [uniqueInOrder, mem_uniqueAux]

/-- The first-occurrence deduplication has no duplicates. -/
lemma nodup_uniqueAux : ∀ (xs seen : List String), (uniqueAux seen xs).Nodup := by
  intro xs
  induction xs with
  | nil => intro seen; simp [uniqueAux]
  | cons x xs ih =>
    intro seen
    simp only [uniqueAux]
    split
    · exact ih seen
    · refine List.nodup_cons.mpr ⟨?_, ih (x :: seen)⟩
      intro hmem
      exact ((mem_uniqueAux xs (x :: seen) x).mp hmem).2 (List.mem_cons_self x seen)

/-- The first-occurrence deduplication has no duplicates. -/
lemma nodup_uniqueInOrder (xs : List String) : (uniqueInOrder xs).Nodup :=
  nodup_uniqueAux xs []

/-- Splitting a count of unseen elements at a fresh value. -/
lemma count_seen_split (x : String) (seen : List String) (hx : x ∉ seen) :
    ∀ xs : List String, xs.count x + xs.countP (fun y => !decide (y ∈ x :: seen)) =
      xs.countP (fun y => !decide (y ∈ seen)) := by
  intro xs
  induction xs with
  | nil => simp
  | cons y ys ih =>
    rw [List.count_cons, List.countP_cons, List.countP_cons]
    by_cases hyx : y = x
    · have e1 : (if y == x then 1 else 0) = 1 := by simp [hyx]
      have e2 : (if (!decide (y ∈ x :: seen)) = true then 1 else 0) = 0 := by
        simp [hyx]
      have e3 : (if (!decide (y ∈ seen)) = true then 1 else 0) = 1 := by
        simp [hyx, hx]
      rw [e1, e2, e3]
      omega
    · have e1 : (if y == x then 1 else 0) = 0 := by simp [hyx]
      have e2 : (if (!decide (y ∈ x :: seen)) = true then 1 else 0) =
          (if (!decide (y ∈ seen)) = true then 1 else 0) := by
        simp [List.mem_cons, hyx]
      rw [e1, e2]
      omega

/-- Sum of the counts of the distinct unseen values equals the number of
unseen elements. -/
lemma sum_counts_uniqueAux : ∀ (xs seen : List String),
    ((uniqueAux seen xs).map (fun v => xs.count v)).sum =
      xs.countP (fun y => !decide (y ∈ seen)) := by
  intro xs
  induction xs with
  | nil => intro seen; simp [uniqueAux]
  | cons x xs ih =>
    intro seen
    simp only [uniqueAux]
    split
    case isTrue hx =>
      have hmap : (uniqueAux seen xs).map (fun v => (x :: xs).count v)
          = (uniqueAux seen xs).map (fun v => xs.count v) := by
        apply List.map_congr_left
        intro v hv
        have hvseen := ((mem_uniqueAux xs seen v).mp hv).2
        have hvx : v ≠ x := fun h => hvseen (h ▸ hx)
        exact List.count_cons_of_ne hvx _
      rw [hmap, ih seen, List.countP_cons]
      have h1 : (if (!decide (x ∈ seen)) = true then 1 else 0) = 0 := by simp [hx]
      rw [h1]
      omega
    case isFalse hx =>
      simp only [List.map_cons, List.sum_cons]
      have hmap : (uniqueAux (x :: seen) xs).map (fun v => (x :: xs).count v)
          = (uniqueAux (x :: seen) xs).map (fun v => xs.count v) := by
        apply List.map_congr_left
        intro v hv
        have hvseen := ((mem_uniqueAux xs (x :: seen) v).mp hv).2
        have hvx : v ≠ x := fun h => hvseen (h ▸ List.mem_cons_self x seen)
        exact List.count_cons_of_ne hvx _
      rw [hmap, ih (x :: seen), List.count_cons_self, List.countP_cons]
      have h1 : (if (!decide (x ∈ seen)) = true then 1 else 0) = 1 := by simp [hx]
      rw [h1]
      have h2 := count_seen_split x seen hx xs
      omega

/-- Sum of the counts of the distinct values of a list equals its length. -/
lemma sum_counts_uniqueInOrder (xs : List String) :
    ((uniqueInOrder xs).map (fun v => xs.count v)).sum = xs.length := by
  have h := sum_counts_uniqueAux xs []
  simpa [uniqueInOrder] using h

/-- The frequency table is a permutation of the first-occurrence pair list. -/
lemma valueCounts_perm (xs : List String) :
    (valueCounts xs).Perm ((uniqueInOrder xs).map (fun v => (v, xs.count v))) :=
  sortLe_perm _ _

/-- Counts in a frequency table sum to the length of the column. -/
lemma valueCounts_sum (xs : List String) :
    ((valueCounts xs).map Prod.snd).sum = xs.length := by
  have hp := (valueCounts_perm xs).map Prod.snd
  rw [hp.sum_eq, List.map_map]
  simpa using sum_counts_uniqueInOrder xs

/-- Every observed value appears in the frequency table with its count. -/
lemma mem_valueCounts_of_mem (xs : List String) (v : String) (h : v ∈ xs) :
    (v, xs.count v) ∈ valueCounts xs := by
  rw [(valueCounts_perm xs).mem_iff]
  exact List.mem_map.mpr ⟨v, (mem_uniqueInOrder xs v).mpr h, rfl⟩

/-- The frequency table is sorted by non-increasing count. -/
lemma valueCounts_sorted (xs : List String) :
    (valueCounts xs).Pairwise (fun a b => b.2 ≤ a.2) := by
  have h := pairwise_sortLe countDescLe countDescLe_total countDescLe_trans
    ((uniqueInOrder xs).map (fun v => (v, xs.count v)))
  exact h.imp (fun hab => of_decide_eq_true hab)

/-- Keys of the group-mean table: the distinct key values, sorted ascending. -/
lemma groupMeans_keys (D : List Record) (key : Record → String) :
    (groupMeans D key).map Prod.fst = sortLe strLe (uniqueInOrder (D.map key)) := by
  unfold groupMeans
  rw [List.map_map]
  exact List.map_id _

/-- Occurrences of the literal "None" after the fill: the missing cells plus
the cells that already held the literal. -/
lemma fill_count_none : ∀ col : List (Option String),
    (col.map (fun c => c.getD "None")).count "None" =
      col.countP (fun c => c.isNone) + col.count (some "None") := by
  intro col
  induction col with
  | nil => simp
  | cons c cs ih =>
    cases c with
    | none =>
      simp [List.count_cons, List.countP_cons, ih]
      omega
    | some s =>
      by_cases hs : s = "None"
      · subst hs
        simp [List.count_cons, List.countP_cons, ih]
        omega
      · simp [List.count_cons, List.countP_cons, ih, hs, Ne.symm hs]

/-- Occurrences of any other value are unchanged by the fill. -/
lemma fill_count_other (s : String) (hs : s ≠ "None") : ∀ col : List (Option String),
    (col.map (fun c => c.getD "None")).count s = col.count (some s) := by
  intro col
  induction col with
  | nil => simp
  | cons c cs ih =>
    cases c with
    | none =>
      simp [List.count_cons, ih, hs, Ne.symm hs]
    | some v =>
      simp [List.count_cons, ih]

/-- Symmetry of the demeaned dot product. -/
lemma demeanedDot_comm (xs ys : List ℚ) : demeanedDot xs ys = demeanedDot ys xs := by
  unfold demeanedDot
  rw [List.zipWith_comm]
  have h : (fun (y x : ℚ) => (x - listMean xs) * (y - listMean ys)) =
      (fun (y x : ℚ) => (y - listMean ys) * (x - listMean xs)) := by
    funext a b
    ring
  rw [h]

/-- Nonnegativity of the self demeaned dot product (a sum of squares). -/
lemma demeanedDot_self_nonneg (xs : List ℚ) : 0 ≤ demeanedDot xs xs := by
  unfold demeanedDot
  rw [List.zipWith_same]
  apply List.sum_nonneg
  intro a ha
  rcases List.mem_map.mp ha with ⟨b, _, rfl⟩
  exact mul_self_nonneg _

/-- The clipped value lies in the unit interval. -/
lemma clip_mem (x : ℝ) : -1 ≤ clip x ∧ clip x ≤ 1 := by
  unfold clip
  split_ifs with h1 h2
  · constructor <;> norm_num
  · constructor <;> norm_num
  · push_neg at h1 h2
    exact ⟨h2, h1⟩

/-- Clipping fixes 1. -/
lemma clip_one : clip 1 = 1 := by
  unfold clip
  norm_num

/-- The Pearson coefficient is symmetric in its two columns. -/
lemma pearson_symm (xs ys : List ℚ) : pearson xs ys = pearson ys xs := by
  unfold pearson
  rw [demeanedDot_comm xs ys, mul_comm (demeanedDot xs xs) (demeanedDot ys ys),
    mul_comm ((demeanedDot xs xs : ℚ) : ℝ) ((demeanedDot ys ys : ℚ) : ℝ)]

/-- The self coefficient is exactly 1 when the self dot product is nonzero. -/
lemma pearson_self (xs : List ℚ) (h : demeanedDot xs xs ≠ 0) : pearson xs xs = some 1 := by
  unfold pearson
  rw [if_neg (by simpa [mul_self_eq_zero] using h)]
  have hnn : (0 : ℝ) ≤ ((demeanedDot xs xs : ℚ) : ℝ) := by
    exact_mod_cast demeanedDot_self_nonneg xs
  rw [Real.sqrt_mul_self hnn, div_self (by exact_mod_cast h), clip_one]

/-- A zero self dot product on the left makes the coefficient NaN. -/
lemma pearson_none_left (xs ys : List ℚ) (h : demeanedDot xs xs = 0) :
    pearson xs ys = none := by
  unfold pearson
  rw [if_pos (by rw [h, zero_mul])]

/-- A zero self dot product on the right makes the coefficient NaN. -/
lemma pearson_none_right (xs ys : List ℚ) (h : demeanedDot ys ys = 0) :
    pearson xs ys = none := by
  unfold pearson
  rw [if_pos (by rw [h, mul_zero])]

/-- Any defined coefficient lies in the unit interval. -/
lemma pearson_mem (xs ys : List ℚ) (v : ℝ) (h : pearson xs ys = some v) :
    -1 ≤ v ∧ v ≤ 1 := by
  unfold pearson at h
  by_cases h0 : demeanedDot xs xs * demeanedDot ys ys = 0
  · rw [if_pos h0] at h
    exact absurd h (by simp)
  · rw [if_neg h0] at h
    exact (Option.some.inj h) ▸ clip_mem _

/-- The heart-rate column of the constant dataset has zero variance. -/
lemma constDataset_hr_dd :
    demeanedDot (numericColumn constDataset NumField.heart_rate)
      (numericColumn constDataset NumField.heart_rate) = 0 := by
  have h : numericColumn constDataset NumField.heart_rate = [70, 70] := rfl
  rw [h]
  norm_num [demeanedDot, listMean, List.zipWith]

/-- The sleep-duration column of the fixture has nonzero variance. -/
lemma fixture_sd_dd_ne :
    demeanedDot (numericColumn data_base_fixture NumField.sleep_duration)
      (numericColumn data_base_fixture NumField.sleep_duration) ≠ 0 := by
  have h : numericColumn data_base_fixture NumField.sleep_duration
      = [7.5, 6.8, 8.2, 6.5] := rfl
  rw [h]
  norm_num [demeanedDot, listMean, List.zipWith]

/-- C1, counterexample: on the two-row dataset whose heart-rate column is
constant (zero variance), the diagonal entry of the correlation matrix at
heart rate is NaN (`none`), not 1.0, so the claim that for every dataset
every diagonal entry equals exactly 1.0 is false. -/
theorem C1_counterexample :
    ¬ corr_matrix constDataset NumField.heart_rate NumField.heart_rate = some 1 := by
  unfold corr_matrix
  rw [pearson_none_left _ _ constDataset_hr_dd]
  exact Option.noConfusion

/-- C1 (amended): for every dataset the correlation matrix is symmetric, and
every diagonal entry equals exactly 1.0 whenever the field's demeaned square
sum over its column is nonzero; a zero-variance field instead yields an
undefined (NaN) diagonal entry. -/
theorem C1_corr_matrix_symm_diag :
    (∀ (D : List Record) (f g : NumField), corr_matrix D f g = corr_matrix D g f) ∧
    (∀ (D : List Record) (f : NumField),
      demeanedDot (numericColumn D f) (numericColumn D f) ≠ 0 →
        corr_matrix D f f = some 1) := by
  constructor
  · intro D f g
    exact pearson_symm _ _
  · intro D f h
    exact pearson_self _ h

/-- C1 witness: the amended diagonal statement evaluated on the fixture
dataset at the sleep-duration field. -/
theorem C1_witness :
    demeanedDot (numericColumn data_base_fixture NumField.sleep_duration)
      (numericColumn data_base_fixture NumField.sleep_duration) ≠ 0 ∧
    corr_matrix data_base_fixture NumField.sleep_duration NumField.sleep_duration = some 1 :=
  ⟨fixture_sd_dd_ne,
    C1_corr_matrix_symm_diag.2 data_base_fixture NumField.sleep_duration fixture_sd_dd_ne⟩

/-- C2: for every dataset, each of the three frequency tables has counts
summing to the number of rows, and contains every distinct observed value
with a count of at least 1. -/
theorem C2_frequency_tables (D : List Record) :
    (((gender_counts D).map Prod.snd).sum = D.length ∧
      ((bmi_counts D).map Prod.snd).sum = D.length ∧
      ((sleep_disorder_counts D).map Prod.snd).sum = D.length) ∧
    ((∀ v ∈ D.map Record.gender, ∃ k, (v, k) ∈ gender_counts D ∧ 1 ≤ k) ∧
      (∀ v ∈ D.map Record.bmi_category, ∃ k, (v, k) ∈ bmi_counts D ∧ 1 ≤ k) ∧
      (∀ v ∈ D.map Record.sleep_disorder, ∃ k, (v, k) ∈ sleep_disorder_counts D ∧ 1 ≤ k)) := by
  refine ⟨⟨?_, ?_, ?_⟩, ?_, ?_, ?_⟩
  · rw [gender_counts, valueCounts_sum, List.length_map]
  · rw [bmi_counts, valueCounts_sum, List.length_map]
  · rw [sleep_disorder_counts, valueCounts_sum, List.length_map]
  · intro v hv
    exact ⟨_, mem_valueCounts_of_mem _ v hv, List.count_pos_iff.mpr hv⟩
  · intro v hv
    exact ⟨_, mem_valueCounts_of_mem _ v hv, List.count_pos_iff.mpr hv⟩
  · intro v hv
    exact ⟨_, mem_valueCounts_of_mem _ v hv, List.count_pos_iff.mpr hv⟩

/-- C2 witness: the completeness statement evaluated on the fixture at the
value "Male". -/
theorem C2_witness :
    "Male" ∈ data_base_fixture.map Record.gender ∧
    ∃ k, ("Male", k) ∈ gender_counts data_base_fixture ∧ 1 ≤ k :=
  ⟨by decide, (C2_frequency_tables data_base_fixture).2.1 "Male" (by decide)⟩

/-- C3: an unreadable or unparsable source loads to the built-in fixture with
the degraded-load condition reported (the boolean models the printed message
of line 38); the fixture has 4 rows, spans both genders, at least two BMI
categories and at least two sleep-disorder values, and presents all nine
required columns. -/
theorem C3_fallback_fixture :
    load none = (fixtureTable, true) ∧
    4 ≤ data_base_fixture.length ∧
    "Male" ∈ data_base_fixture.map Record.gender ∧
    "Female" ∈ data_base_fixture.map Record.gender ∧
    2 ≤ (uniqueInOrder (data_base_fixture.map Record.bmi_category)).length ∧
    2 ≤ (uniqueInOrder (data_base_fixture.map Record.sleep_disorder)).length ∧
    schemaComplete fixtureTable = true :=
  ⟨rfl, by decide, by decide, by decide, by decide, by decide, rfl⟩

/-- C4: on the fixture (which equals the four-row example of the spec), the
gender group means of sleep duration are 7.85 for Male and 6.65 for Female,
and the sleep-disorder frequency table maps None to 2, Insomnia to 1 and
Sleep Apnea to 1. -/
theorem C4_fixture_end_to_end :
    (∃ m, List.lookup "Male" (stats_gender data_base_fixture) = some m ∧
      m NumField.sleep_duration = 7.85) ∧
    (∃ m, List.lookup "Female" (stats_gender data_base_fixture) = some m ∧
      m NumField.sleep_duration = 6.65) ∧
    List.lookup "None" (sleep_disorder_counts data_base_fixture) = some 2 ∧
    List.lookup "Insomnia" (sleep_disorder_counts data_base_fixture) = some 1 ∧
    List.lookup "Sleep Apnea" (sleep_disorder_counts data_base_fixture) = some 1 := by
  have hkeys : sortLe strLe (uniqueInOrder (data_base_fixture.map Record.gender))
      = ["Female", "Male"] := by decide
  have hs : stats_gender data_base_fixture =
      [("Female", fun f => listMean (numericColumn
          (data_base_fixture.filter (fun r => r.gender == "Female")) f)),
       ("Male", fun f => listMean (numericColumn
          (data_base_fixture.filter (fun r => r.gender == "Male")) f))] := by
    unfold stats_gender groupMeans
    rw [hkeys]
    rfl
  have hM : List.lookup "Male" (stats_gender data_base_fixture) =
      some (fun f => listMean (numericColumn
        (data_base_fixture.filter (fun r => r.gender == "Male")) f)) := by
    rw [hs]
    rfl
  have hF : List.lookup "Female" (stats_gender data_base_fixture) =
      some (fun f => listMean (numericColumn
        (data_base_fixture.filter (fun r => r.gender == "Female")) f)) := by
    rw [hs]
    rfl
  have hMcol : numericColumn (data_base_fixture.filter (fun r => r.gender == "Male"))
      NumField.sleep_duration = [7.5, 8.2] := rfl
  have hFcol : numericColumn (data_base_fixture.filter (fun r => r.gender == "Female"))
      NumField.sleep_duration = [6.8, 6.5] := rfl
  have hMv : listMean (numericColumn
      (data_base_fixture.filter (fun r => r.gender == "Male")) NumField.sleep_duration)
      = 7.85 := by
    rw [hMcol]
    norm_num [listMean]
  have hFv : listMean (numericColumn
      (data_base_fixture.filter (fun r => r.gender == "Female")) NumField.sleep_duration)
      = 6.65 := by
    rw [hFcol]
    norm_num [listMean]
  exact ⟨⟨_, hM, hMv⟩, ⟨_, hF, hFv⟩, by decide, by decide, by decide⟩

/-- C5, counterexample: on the constant-heart-rate dataset (zero variance of
heart rate), the coefficient between heart rate and sleep duration is NaN
(`none`), not the claimed 0.0. -/
theorem C5_counterexample :
    demeanedDot (numericColumn constDataset NumField.heart_rate)
      (numericColumn constDataset NumField.heart_rate) = 0 ∧
    corr_matrix constDataset NumField.heart_rate NumField.sleep_duration ≠ some 0 := by
  refine ⟨constDataset_hr_dd, ?_⟩
  unfold corr_matrix
  rw [pearson_none_left _ _ constDataset_hr_dd]
  exact Option.noConfusion

/-- C5 (amended): when a numeric field has zero variance over the rows, every
correlation entry involving that field is NaN (`none`), not 0.0. -/
theorem C5_zero_variance_nan (D : List Record) (f g : NumField)
    (h : demeanedDot (numericColumn D f) (numericColumn D f) = 0) :
    corr_matrix D f g = none ∧ corr_matrix D g f = none :=
  ⟨pearson_none_left _ _ h, pearson_none_right _ _ h⟩

/-- C5 witness: the amended statement evaluated on the constant-heart-rate
dataset. -/
theorem C5_witness :
    demeanedDot (numericColumn constDataset NumField.heart_rate)
      (numericColumn constDataset NumField.heart_rate) = 0 ∧
    (corr_matrix constDataset NumField.heart_rate NumField.sleep_duration = none ∧
      corr_matrix constDataset NumField.sleep_duration NumField.heart_rate = none) :=
  ⟨constDataset_hr_dd,
    C5_zero_variance_nan constDataset NumField.heart_rate NumField.sleep_duration
      constDataset_hr_dd⟩

/-- C6, counterexample: in the fixture the value "Male" occurs first, yet the
gender group table lists "Female" first (ascending sorted keys), so the
claimed first-occurrence output order is false. -/
theorem C6_counterexample :
    (stats_gender data_base_fixture).map Prod.fst = ["Female", "Male"] ∧
    uniqueInOrder (data_base_fixture.map Record.gender) = ["Male", "Female"] ∧
    (stats_gender data_base_fixture).map Prod.fst ≠
      uniqueInOrder (data_base_fixture.map Record.gender) := by
  have hg : (stats_gender data_base_fixture).map Prod.fst =
      sortLe strLe (uniqueInOrder (data_base_fixture.map Record.gender)) :=
    groupMeans_keys data_base_fixture Record.gender
  rw [hg]
  refine ⟨by decide, by decide, by decide⟩

/-- C6 (amended): the group-mean rows are keyed by the distinct category
values present, sorted ascending in code-point order (not first-occurrence
order), with exactly one row per distinct value and none dropped. -/
theorem C6_group_rows (D : List Record) :
    (((stats_gender D).map Prod.fst).Pairwise (fun a b => strLe a b = true) ∧
      ((stats_gender D).map Prod.fst).Nodup ∧
      (∀ v, v ∈ (stats_gender D).map Prod.fst ↔ v ∈ D.map Record.gender)) ∧
    (((stats_bmi D).map Prod.fst).Pairwise (fun a b => strLe a b = true) ∧
      ((stats_bmi D).map Prod.fst).Nodup ∧
      (∀ v, v ∈ (stats_bmi D).map Prod.fst ↔ v ∈ D.map Record.bmi_category)) := by
  have hg : (stats_gender D).map Prod.fst =
      sortLe strLe (uniqueInOrder (D.map Record.gender)) :=
    groupMeans_keys D Record.gender
  have hb : (stats_bmi D).map Prod.fst =
      sortLe strLe (uniqueInOrder (D.map Record.bmi_category)) :=
    groupMeans_keys D Record.bmi_category
  rw [hg, hb]
  exact ⟨⟨pairwise_sortLe strLe strLe_total strLe_trans _,
      (sortLe_perm strLe _).nodup_iff.mpr (nodup_uniqueInOrder _),
      fun v => (sortLe_perm strLe _).mem_iff.trans (mem_uniqueInOrder _ v)⟩,
    ⟨pairwise_sortLe strLe strLe_total strLe_trans _,
      (sortLe_perm strLe _).nodup_iff.mpr (nodup_uniqueInOrder _),
      fun v => (sortLe_perm strLe _).mem_iff.trans (mem_uniqueInOrder _ v)⟩⟩

/-- C7: loading rewrites exactly the missing sleep-disorder cells to the
literal "None", leaves every other column untouched, and the filled column's
frequency counts such rows under "None" (which then appears in the frequency
table) and under no other key. -/
theorem C7_missing_value_policy (t : RawTable) (col : List (Option String))
    (h : t.sleep_disorder = some col) :
    (load (some t)).1 = { t with sleep_disorder := some (col.map (fun c => some (c.getD "None"))) } ∧
    (col.map (fun c => c.getD "None")).count "None" =
      col.countP (fun c => c.isNone) + col.count (some "None") ∧
    (∀ s, s ≠ "None" →
      (col.map (fun c => c.getD "None")).count s = col.count (some s)) ∧
    (1 ≤ col.countP (fun c => c.isNone) →
      ("None", (col.map (fun c => c.getD "None")).count "None") ∈
        valueCounts (col.map (fun c => c.getD "None"))) := by
  refine ⟨?_, fill_count_none col, fun s hs => fill_count_other s hs col, ?_⟩
  · simp [load, h]
  · intro hpos
    apply mem_valueCounts_of_mem
    rcases List.countP_pos_iff.mp hpos with ⟨c, hc, hcn⟩
    cases c with
    | none => exact List.mem_map.mpr ⟨none, hc, rfl⟩
    | some s => simp at hcn

/-- C7 witness: the policy evaluated on a table whose sleep-disorder column
has one missing cell. -/
theorem C7_witness :
    rawWithMissing.sleep_disorder = some [some "Insomnia", none] ∧
    (load (some rawWithMissing)).1 = { rawWithMissing with sleep_disorder := some (([some "Insomnia", none] : List (Option String)).map (fun c => some (c.getD "None"))) } ∧
    (([some "Insomnia", none] : List (Option String)).map
      (fun c => c.getD "None")).count "Insomnia" =
      ([some "Insomnia", none] : List (Option String)).count (some "Insomnia") ∧
    ("None", (([some "Insomnia", none] : List (Option String)).map
        (fun c => c.getD "None")).count "None") ∈
      valueCounts (([some "Insomnia", none] : List (Option String)).map
        (fun c => c.getD "None")) := by
  have h := C7_missing_value_policy rawWithMissing [some "Insomnia", none] rfl
  exact ⟨rfl, h.1, h.2.2.1 "Insomnia" (by decide), h.2.2.2 (by decide)⟩

/-- C8, counterexample: a table missing the required Heart_Rate column (but
with Sleep_Disorder present) loads without fixture substitution and without
any degraded report, and the schema-deficient table reaches the Correlation
Engine, whose column selection of line 61 then fails; so the claimed
MissingColumn failure with local recovery is false. -/
theorem C8_counterexample :
    rawMissingHR.heart_rate = none ∧
    (load (some rawMissingHR)).2 = false ∧
    (load (some rawMissingHR)).1 ≠ fixtureTable ∧
    numericTableColumns (load (some rawMissingHR)).1 = none := by
  refine ⟨rfl, rfl, ?_, rfl⟩
  intro h
  have hl : (load (some rawMissingHR)).1.heart_rate = none := rfl
  rw [h] at hl
  exact absurd hl (by simp [fixtureTable, recordsToTable])

/-- C8 (amended): the loader substitutes the reported fixture exactly when the
source is unreadable/unparsable or the Sleep_Disorder column is absent; when
Sleep_Disorder is present it returns the table with only the fill applied and
no report, performing no schema check, and the Correlation Engine's column
selection receives the table's numeric columns unchanged, absent or not. -/
theorem C8_load_schema (t : RawTable) :
    (t.sleep_disorder = none → load (some t) = (fixtureTable, true)) ∧
    (∀ col, t.sleep_disorder = some col →
      load (some t) = ({ t with sleep_disorder := some (col.map (fun c => some (c.getD "None"))) }, false) ∧
      numericTableColumns (load (some t)).1 = numericTableColumns t) := by
  constructor
  · intro h
    simp [load, h]
  · intro col h
    have h1 : load (some t) = ({ t with sleep_disorder := some (col.map (fun c => some (c.getD "None"))) }, false) := by
      simp [load, h]
    exact ⟨h1, by rw [h1]; rfl⟩

/-- C8 witness: both loader branches evaluated on concrete tables. -/
theorem C8_witness :
    rawNoDisorder.sleep_disorder = none ∧
    load (some rawNoDisorder) = (fixtureTable, true) ∧
    (load (some rawMissingHR) = ({ rawMissingHR with sleep_disorder := some ((data_base_fixture.map (fun r : Record => some r.sleep_disorder)).map (fun c => some (c.getD "None"))) }, false) ∧
      numericTableColumns (load (some rawMissingHR)).1 = numericTableColumns rawMissingHR) :=
  ⟨rfl, (C8_load_schema rawNoDisorder).1 rfl,
    (C8_load_schema rawMissingHR).2 (data_base_fixture.map (fun r : Record => some r.sleep_disorder)) rfl⟩

/-- C9, counterexample: on the constant-heart-rate dataset the diagonal entry
at heart rate is NaN (`none`), hence not a value lying in the interval, so
the claim that every entry lies in the interval for every dataset is false. -/
theorem C9_counterexample :
    ¬ ∃ v : ℝ, corr_matrix constDataset NumField.heart_rate NumField.heart_rate = some v ∧
      -1 ≤ v ∧ v ≤ 1 := by
  rintro ⟨v, hv, -⟩
  unfold corr_matrix at hv
  rw [pearson_none_left _ _ constDataset_hr_dd] at hv
  exact Option.noConfusion hv

/-- C9 (amended): every defined (non-NaN) entry of the correlation matrix
lies in the closed interval from -1.0 to 1.0. -/
theorem C9_entries_bounded (D : List Record) (f g : NumField) (v : ℝ)
    (h : corr_matrix D f g = some v) : -1 ≤ v ∧ v ≤ 1 :=
  pearson_mem _ _ v h

/-- C9 witness: the bound evaluated at the fixture diagonal entry for sleep
duration, whose value is 1. -/
theorem C9_witness :
    corr_matrix data_base_fixture NumField.sleep_duration NumField.sleep_duration = some 1 ∧
    (-1 ≤ (1 : ℝ) ∧ (1 : ℝ) ≤ 1) := by
  have h : corr_matrix data_base_fixture NumField.sleep_duration NumField.sleep_duration
      = some 1 := pearson_self _ fixture_sd_dd_ne
  exact ⟨h, C9_entries_bounded data_base_fixture NumField.sleep_duration
    NumField.sleep_duration 1 h⟩

/-- C10: for every dataset, each of the three frequency tables lists its
categories in non-increasing order of count, most frequent first. -/
theorem C10_counts_sorted (D : List Record) :
    (gender_counts D).Pairwise (fun a b => b.2 ≤ a.2) ∧
    (bmi_counts D).Pairwise (fun a b => b.2 ≤ a.2) ∧
    (sleep_disorder_counts D).Pairwise (fun a b => b.2 ≤ a.2) :=
  ⟨valueCounts_sorted _, valueCounts_sorted _, valueCounts_sorted _⟩
